import Mathlib

/-!
A shallow embedding of the timetable scraper of this repository
(the update script: `STATION_CONFIG`, `main`, `scrapeTimetablesForStation`,
`scrapeYahooTimetable`).

The HTML documents handled by cheerio are modelled as a tree of element and
text nodes; the CSS selectors used by the script (tag selectors, class
selectors, descendant combinators, comma-separated unions) are modelled by a
document-order traversal that tracks the ancestor chain.  JavaScript string
and number functions are modelled on Lean strings and integers: `parseInt`
as leading-whitespace/sign/decimal-digit parsing (the rare hexadecimal
`0x` prefix form is not modelled; the scraped texts are decimal), `trim` as
ASCII-whitespace trimming, the regex `^(\d+)` as a leading ASCII-digit run,
and the stable `Array.prototype.sort` as a stable insertion sort (any
stable sort consistent with the comparator computes the same list, and the
insertion sort reduces inside the kernel).
-/

mutual

/-- A DOM-like node as produced by cheerio.load: an element with a tag name,
a list of CSS classes and children, or a text node.  The children are a
`NodeList` (a mutually defined list type) so that all tree functions are
structurally recursive and reduce inside the kernel. -/
inductive Node where
  | elem (tag : String) (classes : List String) (children : NodeList)
  | text (s : String)

/-- A list of sibling nodes. -/
inductive NodeList where
  | nil
  | cons (head : Node) (tail : NodeList)

end

/-- Build a `NodeList` from a plain list of nodes. -/
def NodeList.ofList : List Node → NodeList
  | [] => .nil
  | n :: ns => .cons n (NodeList.ofList ns)

/-- Element constructor taking the children as a plain list, for readable
fixture documents. -/
def el (tag : String) (classes : List String) (children : List Node) : Node :=
  .elem tag classes (NodeList.ofList children)

/-- Text node constructor. -/
def tx (s : String) : Node := .text s

mutual

/-- The concatenated text of all descendant text nodes, in document order
(cheerio `.text()` of a single element). -/
def Node.textContent : Node → String
  | .text s => s
  | .elem _ _ ch => NodeList.textContent ch

/-- Concatenated text of a list of sibling nodes. -/
def NodeList.textContent : NodeList → String
  | .nil => ""
  | .cons n ns => n.textContent ++ NodeList.textContent ns

end

/-- cheerio `.text()` of a whole selection: the texts of the matched
elements, concatenated in order.  Empty selection gives the empty string. -/
def selText (ns : List Node) : String :=
  ns.foldl (fun acc n => acc ++ n.textContent) ""

/-- A simple CSS selector: a tag name (`td`) or a class (`.col-hour`). -/
inductive SimpleSel where
  | tag (t : String)
  | cls (c : String)

/-- A selector as used by the script: a simple selector, or a descendant
combinator of two simple selectors (`.col-min li`). -/
inductive Sel where
  | simple (s : SimpleSel)
  | desc (anc : SimpleSel) (child : SimpleSel)

/-- Whether a node matches a simple selector.  Text nodes match nothing. -/
def matchesSimple (s : SimpleSel) (n : Node) : Bool :=
  match s, n with
  | .tag t, .elem tag _ _ => tag == t
  | .cls c, .elem _ classes _ => classes.contains c
  | _, .text _ => false

/-- Whether a node with the given ancestor chain matches a selector. -/
def matchesSel (anc : List Node) (sel : Sel) (n : Node) : Bool :=
  match sel with
  | .simple s => matchesSimple s n
  | .desc a c => matchesSimple c n && anc.any (matchesSimple a)

/-- A comma-separated selector list matches when any member matches
(CSS selector union, as in `'.col-min li, td li, td span'`). -/
def selMatch (sels : List Sel) (anc : List Node) (n : Node) : Bool :=
  sels.any (fun s => matchesSel anc s n)

mutual

/-- Generic document-order (preorder) selection: collect every node of the
tree satisfying the predicate, which sees the node together with its chain
of ancestors (outermost first).  cheerio / css-select return matches in
document order with each node listed once, which preorder traversal gives
directly. -/
def selectP (p : List Node → Node → Bool) (anc : List Node) : Node → List Node
  | .text s => if p anc (.text s) then [.text s] else []
  | .elem t c ch =>
      (if p anc (.elem t c ch) then [.elem t c ch] else [])
        ++ selectPList p (anc ++ [.elem t c ch]) ch

/-- `selectP` over a list of sibling subtrees, left to right. -/
def selectPList (p : List Node → Node → Bool) (anc : List Node) :
    NodeList → List Node
  | .nil => []
  | .cons n ns => selectP p anc n ++ selectPList p anc ns

end

/-- Document-level selection `$(sel)`: all nodes of the document matching
any selector of the list, in document order. -/
def select (doc : Node) (sels : List Sel) : List Node :=
  selectP (selMatch sels) [] doc

/-- Context selection `$(ctx).find(sel)`: all strict descendants of the
context node matching any selector of the list, in document order.  The
context node itself is part of the ancestor chain seen by descendant
combinators. -/
def Node.findAll : Node → List Sel → List Node
  | .text _, _ => []
  | .elem t c ch, sels => selectPList (selMatch sels) [.elem t c ch] ch

/-- JavaScript `String.prototype.trim`: strip whitespace from both ends.
Defined on the character list (rather than through `String.trim`) so that
it reduces inside the kernel. -/
def jsTrim (s : String) : String :=
  ⟨((s.data.dropWhile Char.isWhitespace).reverse.dropWhile
      Char.isWhitespace).reverse⟩

/-- The numeric value of a run of decimal digit characters. -/
def digitsToNat (ds : List Char) : Nat :=
  ds.foldl (fun a c => a * 10 + (c.toNat - 48)) 0

/-- The regex `^(\d+)`: the leading run of ASCII digits of a string, if
non-empty, as a natural number (`minText.match` followed by `parseInt` of
the digits-only capture). -/
def leadingNat (s : String) : Option Nat :=
  let ds := s.data.takeWhile Char.isDigit
  if ds.isEmpty then none else some (digitsToNat ds)

/-- JavaScript `parseInt` on the decimal inputs the scraper meets: skip
leading whitespace, accept an optional sign, then require at least one
decimal digit; trailing garbage is ignored.  `NaN` is `none`. -/
def jsParseInt (s : String) : Option Int :=
  match s.data.dropWhile Char.isWhitespace with
  | '-' :: rest =>
      let ds := rest.takeWhile Char.isDigit
      if ds.isEmpty then none else some (-(digitsToNat ds : Int))
  | '+' :: rest =>
      let ds := rest.takeWhile Char.isDigit
      if ds.isEmpty then none else some ((digitsToNat ds : Int))
  | cs =>
      let ds := cs.takeWhile Char.isDigit
      if ds.isEmpty then none else some ((digitsToNat ds : Int))

/-- A scraped departure time, as pushed by `scrapeYahooTimetable`:
`{ hour: parseInt(...), minute: parseInt(match[1]) }`. -/
structure Departure where
  hour : Int
  minute : Int
deriving DecidableEq, Repr

/-- The comparator `(a, b) => a.hour !== b.hour ? a.hour - b.hour :
a.minute - b.minute` as the boolean relation "a may stay before b"
(comparator result at most zero). -/
def depLe (a b : Departure) : Bool :=
  decide (a.hour < b.hour) || (a.hour == b.hour && decide (a.minute ≤ b.minute))

/-- Insert `a` into `l`, passing over exactly the elements that are
strictly smaller under the comparator order (`le b a` holds and `le a b`
fails).  Inserting an element that originally preceded all of `l` thus
lands before every element tied with it: the stable position. -/
def insertLe (le : α → α → Bool) (a : α) : List α → List α
  | [] => [a]
  | b :: bs => if le b a && !(le a b) then b :: insertLe le a bs else a :: b :: bs

/-- Stable insertion sort: the unique stable sort consistent with the
comparator, which is what `Array.prototype.sort` (required stable by the
language standard) computes. -/
def jsSort (le : α → α → Bool) : List α → List α
  | [] => []
  | a :: as => insertLe le a (jsSort le as)

/-- The text of `$(row).find('.col-hour')`, trimmed. -/
def hourCellText (row : Node) : String :=
  jsTrim (selText (row.findAll [.simple (.cls "col-hour")]))

/-- The text of `$(row).find('td, th').first()`, trimmed; empty when the
row has no cell. -/
def firstCellText (row : Node) : String :=
  jsTrim
    (match (row.findAll [.simple (.tag "td"), .simple (.tag "th")]).head? with
     | some c => c.textContent
     | none => "")

/-- The hour of a row: `parseInt` of the `.col-hour` text, and if that is
`NaN`, `parseInt` of the first `td`/`th` cell text. -/
def rowHour (row : Node) : Option Int :=
  match jsParseInt (hourCellText row) with
  | some h => some h
  | none => jsParseInt (firstCellText row)

/-- The minute-candidate elements of a row:
`$(row).find('.col-min li, td li, td span')` — a single comma-separated
selector, so the union of the three patterns, in document order. -/
def rowMinuteCandidates (row : Node) : List Node :=
  row.findAll
    [.desc (.cls "col-min") (.tag "li"),
     .desc (.tag "td") (.tag "li"),
     .desc (.tag "td") (.tag "span")]

/-- One minute candidate to at most one departure: prefer the text of a
nested `.time` element, else the candidate's own text; keep the leading
digit run if there is one. -/
def depOfCandidate (hour : Int) (item : Node) : Option Departure :=
  let timeText := jsTrim (selText (item.findAll [.simple (.cls "time")]))
  let minText := if timeText = "" then jsTrim item.textContent else timeText
  (leadingNat minText).map (fun (m : Nat) => ⟨hour, (m : Int)⟩)

/-- The departures contributed by one table row (`timetableRows.each`
body): none when the hour cannot be parsed, otherwise one departure per
minute candidate with a leading digit run. -/
def rowDepartures (row : Node) : List Departure :=
  match rowHour row with
  | none => []
  | some h => (rowMinuteCandidates row).filterMap (depOfCandidate h)

/-- The row container lookup: `$('.tbl-dia tr')`, falling back to
`$('table tr')` when the primary selector matches nothing. -/
def timetableRows (doc : Node) : List Node :=
  let primary := select doc [.desc (.cls "tbl-dia") (.tag "tr")]
  if primary.isEmpty then select doc [.desc (.tag "table") (.tag "tr")] else primary

/-- All departures accumulated over the rows, in encounter order (before
the final sort). -/
def collectDepartures (doc : Node) : List Departure :=
  (timetableRows doc).flatMap rowDepartures

/-- The pure part of `scrapeYahooTimetable` applied to a successfully
fetched and parsed document: accumulate row departures, then
`departures.sort(comparator)` — a stable sort, as required of
`Array.prototype.sort`. -/
def scrapeDoc (doc : Node) : List Departure :=
  jsSort depLe (collectDepartures doc)

/-- The spec-described variant of the minute enumeration: try
`.col-min li`, then `td li`, then `td span`, one pattern at a time, and
use the first pattern that yields elements.  This follows the
specification's words; the script itself passes the three patterns as one
comma-separated selector. -/
def rowMinuteCandidatesFirstMatch (row : Node) : List Node :=
  let p1 := row.findAll [.desc (.cls "col-min") (.tag "li")]
  if !p1.isEmpty then p1
  else
    let p2 := row.findAll [.desc (.tag "td") (.tag "li")]
    if !p2.isEmpty then p2
    else row.findAll [.desc (.tag "td") (.tag "span")]

/-- Row departures under the spec-described first-match-wins enumeration. -/
def rowDeparturesFirstMatch (row : Node) : List Departure :=
  match rowHour row with
  | none => []
  | some h => (rowMinuteCandidatesFirstMatch row).filterMap (depOfCandidate h)

/-- The minute enumeration written as one explicit three-way union
predicate over the document-order traversal. -/
def rowMinuteCandidatesUnion (row : Node) : List Node :=
  match row with
  | .text _ => []
  | .elem t c ch =>
      selectPList
        (fun anc n =>
          matchesSel anc (.desc (.cls "col-min") (.tag "li")) n
            || matchesSel anc (.desc (.tag "td") (.tag "li")) n
            || matchesSel anc (.desc (.tag "td") (.tag "span")) n)
        [.elem t c ch] ch

/-- Row departures with the minute candidates given by the explicit union
predicate. -/
def rowDeparturesUnion (row : Node) : List Departure :=
  match rowHour row with
  | none => []
  | some h => (rowMinuteCandidatesUnion row).filterMap (depOfCandidate h)

/-- The fixture row of the specification's end-to-end example:
`<tr><td class="col-hour">7</td><td><ul><li><span class="time">05</span>
</li><li><span class="time">23</span></li></ul></td></tr>`. -/
def fixtureRow : Node :=
  el "tr" []
    [el "td" ["col-hour"] [tx "7"],
     el "td" []
       [el "ul" []
         [el "li" [] [el "span" ["time"] [tx "05"]],
          el "li" [] [el "span" ["time"] [tx "23"]]]]]

/-- A page wrapping the given table rows in a table with the given
classes, inside a plain body. -/
def mkTimetablePage (tableClasses : List String) (rows : List Node) : Node :=
  el "html" [] [el "body" [] [el "table" tableClasses rows]]

/-- The fixture document of the end-to-end example: a page containing the
fixture row (generic table markup, no `tbl-dia` class). -/
def fixtureDoc : Node := mkTimetablePage [] [fixtureRow]

/-- A row whose hour text and minute text are out of the documented
bounds: hour 30, minute 99. -/
def hour30Row : Node :=
  el "tr" []
    [el "td" ["col-hour"] [tx "30"],
     el "td" [] [el "ul" [] [el "li" [] [tx "99"]]]]

/-- A row with a negative hour text. -/
def negHourRow : Node :=
  el "tr" []
    [el "td" ["col-hour"] [tx "-3"],
     el "td" [] [el "ul" [] [el "li" [] [tx "15"]]]]

/-- A document whose parsed departures escape the documented hour and
minute ranges. -/
def outOfRangeDoc : Node := mkTimetablePage [] [hour30Row, negHourRow]

/-- A row with hour 0 and a minute text whose leading digit run is 120. -/
def minute120Row : Node :=
  el "tr" []
    [el "td" ["col-hour"] [tx "0"],
     el "td" [] [el "ul" [] [el "li" [] [tx "120"]]]]

/-- A row with hour 1 and minute 00. -/
def hour1Row : Node :=
  el "tr" []
    [el "td" ["col-hour"] [tx "1"],
     el "td" [] [el "ul" [] [el "li" [] [tx "00"]]]]

/-- A document on which sorting by hour first differs from sorting by
`hour*60+minute`: it parses to minute 120 under hour 0, then minute 0
under hour 1. -/
def overflowMinuteDoc : Node := mkTimetablePage [] [minute120Row, hour1Row]

/-- A header row with no numeric cell text. -/
def headerRow : Node :=
  el "tr" [] [el "th" [] [tx "時"], el "th" [] [tx "平日"]]

/-- One configured direction: human-readable name and Yahoo direction gid. -/
structure DirectionConfig where
  name : String
  gid : Nat
deriving DecidableEq, Repr

/-- One entry of `STATION_CONFIG`: the Yahoo station id and the ordered
directions. -/
structure StationConfig where
  id : String
  directions : List DirectionConfig
deriving DecidableEq, Repr

/-- The fixed `STATION_CONFIG` table of the update script, keyed by the
stored station id. -/
def STATION_CONFIG : List (String × StationConfig) :=
  [("hankai_abikomichi",
    ⟨"25809", [⟨"天王寺駅前 方面", 5690⟩, ⟨"浜寺駅前 方面", 5691⟩]⟩),
   ("nankai_suminoe",
    ⟨"25989", [⟨"なんば 方面", 3950⟩, ⟨"和歌山市 方面", 3951⟩]⟩),
   ("nankai_abikomae",
    ⟨"25808", [⟨"なんば 方面", 4010⟩, ⟨"高野山 方面", 4011⟩]⟩),
   ("jr_sugimotocho",
    ⟨"25988", [⟨"天王寺 方面", 1720⟩, ⟨"和歌山 方面", 1721⟩]⟩)]

/-- `STATION_CONFIG[station.id]`: `undefined` is `none`. -/
def configLookup (sid : String) : Option StationConfig :=
  (STATION_CONFIG.find? (fun p => p.1 == sid)).map (fun p => p.2)

/-- A timetable for one direction, as pushed by
`scrapeTimetablesForStation`. -/
structure Timetable where
  direction : String
  departures : List Departure
deriving DecidableEq, Repr

/-- The `timetables` value committed for a station: the weekday and the
holiday timetable lists. -/
structure TimetableSet where
  weekdays : List Timetable
  holidays : List Timetable
deriving DecidableEq, Repr

/-- A stored station record of `data/stations.json`.  Only `timetables`
is ever written by the update script; the remaining fields ride along
unchanged. -/
structure Station where
  id : String
  name : String
  lineName : String
  color : String
  timetables : Option TimetableSet
deriving DecidableEq, Repr

/-- The outcome of `fetch(url)`: a rejection (network failure) or a
response with its `ok` flag and body text. -/
inductive FetchOutcome where
  | fetchError (msg : String)
  | response (ok : Bool) (body : String)

/-- The network, as a map from URL to fetch outcome. -/
abbrev Env := String → FetchOutcome

/-- `response.text()` followed by `cheerio.load`, which may throw. -/
abbrev Parser := String → Except String Node

/-- The body of the `try` block of `scrapeYahooTimetable`: reject on a
fetch error, throw on a response that is not ok, propagate a parse
exception, and otherwise extract and sort the departures of the page. -/
def scrapeAttempt (env : Env) (parse : Parser) (url : String) :
    Except String (List Departure) :=
  match env url with
  | .fetchError msg => .error msg
  | .response ok body =>
      if ok then
        match parse body with
        | .error e => .error e
        | .ok doc => .ok (scrapeDoc doc)
      else .error ("Failed to fetch " ++ url)

/-- `scrapeYahooTimetable`: on any error of the attempt, the catch block
logs and returns the empty list, so the function always returns a plain
list and never propagates an exception. -/
def scrapeYahooTimetable (env : Env) (parse : Parser) (url : String) :
    List Departure :=
  match scrapeAttempt env parse url with
  | .error _ => []
  | .ok ds => ds

/-- The fetch target
`https://transit.yahoo.co.jp/timetable/<id>/<gid>?kind=<kind>`. -/
def timetableUrl (stationId : String) (gid : Nat) (kind : Nat) : String :=
  "https://transit.yahoo.co.jp/timetable/" ++ stationId ++ "/"
    ++ toString gid ++ "?kind=" ++ toString kind

/-- `scrapeTimetablesForStation`: scrape each direction in order for the
given day-type code, keeping a timetable only when its departure list is
non-empty.  The second component records every URL fetched, in order. -/
def scrapeTimetablesForStation (env : Env) (parse : Parser)
    (config : StationConfig) (kind : Nat) : List Timetable × List String :=
  config.directions.foldl
    (fun acc d =>
      let u := timetableUrl config.id d.gid kind
      let deps := scrapeYahooTimetable env parse u
      (if deps.isEmpty then acc.1 else acc.1 ++ [⟨d.name, deps⟩],
       acc.2 ++ [u]))
    ([], [])

/-- The body of the per-station `try` block of `main`.  `fault` injects an
exception thrown while updating the station (modelled as raised before any
fetch of the station).  Result: the station record after the iteration,
its contribution to `updatedCount`, and the URLs fetched for it.  A
station with no `STATION_CONFIG` entry is skipped by `continue`; a station
whose weekday and holiday scrapes are both non-empty gets its `timetables`
overwritten and counts one. -/
def updateStationAttempt (env : Env) (parse : Parser)
    (fault : Station → Bool) (st : Station) :
    Except String (Station × Nat × List String) :=
  if fault st then .error "injected exception"
  else
    match configLookup st.id with
    | none => .ok (st, 0, [])
    | some config =>
        let w := scrapeTimetablesForStation env parse config 1
        let h := scrapeTimetablesForStation env parse config 4
        if decide (0 < w.1.length) && decide (0 < h.1.length) then
          .ok ({st with timetables := some ⟨w.1, h.1⟩}, 1, w.2 ++ h.2)
        else .ok (st, 0, w.2 ++ h.2)

/-- One loop iteration of `main` with its `catch`: an exception is caught
and logged, leaving the station untouched and uncounted. -/
def processStation (env : Env) (parse : Parser) (fault : Station → Bool)
    (st : Station) : Station × Nat × List String :=
  match updateStationAttempt env parse fault st with
  | .error _ => (st, 0, [])
  | .ok r => r

/-- The station loop of `main`: the stations written back at the end of
the cycle, the final `updatedCount`, and all URLs fetched. -/
def mainLoop (env : Env) (parse : Parser) (fault : Station → Bool) :
    List Station → List Station × Nat × List String
  | [] => ([], 0, [])
  | st :: rest =>
      let r := processStation env parse fault st
      let rr := mainLoop env parse fault rest
      (r.1 :: rr.1, r.2.1 + rr.2.1, r.2.2 ++ rr.2.2)

/-- The persisted output of one `main` cycle. -/
structure MainResult where
  stations : List Station
  updatedCount : Nat
  fetched : List String
deriving DecidableEq, Repr

/-- The script's `main` (renamed, since `main` is reserved in Lean): read
the station list, run the loop, write every station (updated or not) back
as one file. -/
def mainUpdate (env : Env) (parse : Parser) (fault : Station → Bool)
    (stations : List Station) : MainResult :=
  let r := mainLoop env parse fault stations
  ⟨r.1, r.2.1, r.2.2⟩

mutual

/-- Whether no element in the subtree carries the given class. -/
def Node.noClassDeep (c : String) : Node → Bool
  | .text _ => true
  | .elem _ classes ch => !(classes.contains c) && NodeList.noClassDeep c ch

/-- Whether no element in any of the subtrees carries the given class. -/
def NodeList.noClassDeep (c : String) : NodeList → Bool
  | .nil => true
  | .cons n ns => Node.noClassDeep c n && NodeList.noClassDeep c ns

end

/-!  Concrete environments and stations used by the witnesses. -/

/-- A network on which every fetch rejects. -/
def envDown : Env := fun _ => .fetchError "network down"

/-- A network on which every fetch succeeds with an opaque body. -/
def envOk : Env := fun _ => .response true "page"

/-- A parser that always throws. -/
def parseFail : Parser := fun _ => .error "parse error"

/-- A parser that always yields the fixture document. -/
def parseFixture : Parser := fun _ => .ok fixtureDoc

/-- A parser that always yields the out-of-range document. -/
def parseOutOfRange : Parser := fun _ => .ok outOfRangeDoc

/-- A parser that always yields the overflow-minute document. -/
def parseOverflow : Parser := fun _ => .ok overflowMinuteDoc

/-- No injected per-station exception. -/
def noFault : Station → Bool := fun _ => false

/-- A stored station present in `STATION_CONFIG`. -/
def stAbiko : Station :=
  ⟨"hankai_abikomichi", "我孫子道", "阪堺電軌阪堺線", "#00a0e9", none⟩

/-- A stored station with no `STATION_CONFIG` entry. -/
def stUnknown : Station := ⟨"metro_nagai", "長居", "御堂筋線", "#e5171f", none⟩

/-- The configuration entry of `stAbiko`. -/
def cfgAbiko : StationConfig :=
  ⟨"25809", [⟨"天王寺駅前 方面", 5690⟩, ⟨"浜寺駅前 方面", 5691⟩]⟩

/-- A stored station used to exercise the per-station catch. -/
def stBroken : Station := ⟨"broken", "故障駅", "不明線", "#000000", none⟩

/-- A fault oracle that throws exactly on `stBroken`. -/
def faultBroken : Station → Bool := fun st => st.id == "broken"


/-!  Facts about the stable sort. -/

/-- Membership in an insertion. -/
theorem mem_insertLe (le : α → α → Bool) (a x : α) :
    ∀ l : List α, x ∈ insertLe le a l ↔ x = a ∨ x ∈ l
  | [] => by simp [insertLe]
  | b :: bs => by
    by_cases h : (le b a && !(le a b)) = true
    · rw [insertLe, if_pos h]
      simp only [List.mem_cons, mem_insertLe le a x bs]
      tauto
    · rw [insertLe, if_neg h]
      simp only [List.mem_cons]

/-- Inserting is a permutation of consing. -/
theorem insertLe_perm (le : α → α → Bool) (a : α) :
    ∀ l : List α, List.Perm (insertLe le a l) (a :: l)
  | [] => List.Perm.refl _
  | b :: bs => by
    by_cases h : (le b a && !(le a b)) = true
    · rw [insertLe, if_pos h]
      exact (((insertLe_perm le a bs).cons b)).trans (List.Perm.swap a b bs)
    · rw [insertLe, if_neg h]

/-- The sorted output is a permutation of the input. -/
theorem jsSort_perm (le : α → α → Bool) : ∀ l : List α, List.Perm (jsSort le l) l
  | [] => List.Perm.refl _
  | a :: as => (insertLe_perm le a (jsSort le as)).trans ((jsSort_perm le as).cons a)

/-- Inserting into a sorted list keeps it sorted, for a total and
transitive comparator order. -/
theorem pairwise_insertLe (le : α → α → Bool)
    (total : ∀ a b, (le a b || le b a) = true)
    (htrans : ∀ a b c, le a b = true → le b c = true → le a c = true)
    (a : α) :
    ∀ l : List α, l.Pairwise (fun x y => le x y = true) →
      (insertLe le a l).Pairwise (fun x y => le x y = true)
  | [], _ => by simp [insertLe]
  | b :: bs, hp => by
    rcases List.pairwise_cons.mp hp with ⟨hb, hbs⟩
    by_cases h : (le b a && !(le a b)) = true
    · have hba : le b a = true := by
        simp only [Bool.and_eq_true] at h
        exact h.1
      rw [insertLe, if_pos h]
      refine List.pairwise_cons.mpr ⟨?_, pairwise_insertLe le total htrans a bs hbs⟩
      intro y hy
      rcases (mem_insertLe le a y bs).mp hy with rfl | hy
      · exact hba
      · exact hb y hy
    · have hab : le a b = true := by
        rcases Bool.or_eq_true_iff.mp (total a b) with h1 | h1
        · exact h1
        · cases hx : le a b with
          | true => rfl
          | false => simp [h1, hx] at h
      rw [insertLe, if_neg h]
      refine List.pairwise_cons.mpr ⟨?_, hp⟩
      intro y hy
      rcases List.mem_cons.mp hy with rfl | hy
      · exact hab
      · exact htrans a b y hab (hb y hy)

/-- The sorted output is sorted, for a total and transitive comparator
order. -/
theorem pairwise_jsSort (le : α → α → Bool)
    (total : ∀ a b, (le a b || le b a) = true)
    (htrans : ∀ a b c, le a b = true → le b c = true → le a c = true) :
    ∀ l : List α, (jsSort le l).Pairwise (fun x y => le x y = true)
  | [] => List.Pairwise.nil
  | a :: as =>
      pairwise_insertLe le total htrans a (jsSort le as)
        (pairwise_jsSort le total htrans as)

/-- Two permuted lists agree on any filter all of whose members are forced
equal: the tool for stability statements about value-equal ties. -/
theorem filter_eq_of_perm_of_unique {l₁ l₂ : List α} (h : List.Perm l₁ l₂)
    (p : α → Bool) (huniq : ∀ x y, p x = true → p y = true → x = y) :
    l₁.filter p = l₂.filter p := by
  have hf : List.Perm (l₁.filter p) (l₂.filter p) := h.filter p
  cases hne : l₁.filter p with
  | nil =>
      rw [hne] at hf
      exact List.Perm.nil_eq hf
  | cons d ds =>
      have hdp : p d = true := (List.mem_filter.mp (hne ▸ List.mem_cons_self d ds)).2
      have h1 : l₁.filter p = List.replicate (l₁.filter p).length d :=
        List.eq_replicate_of_mem (fun b hb => huniq b d (List.mem_filter.mp hb).2 hdp)
      have h2 : l₂.filter p = List.replicate (l₂.filter p).length d :=
        List.eq_replicate_of_mem (fun b hb => huniq b d (List.mem_filter.mp hb).2 hdp)
      rw [← hne, h1, h2, hf.length_eq]

/-- The comparator order on departures is total. -/
theorem depLe_total (a b : Departure) : (depLe a b || depLe b a) = true := by
  simp only [depLe, Bool.or_eq_true, Bool.and_eq_true, decide_eq_true_eq, beq_iff_eq]
  omega

/-- The comparator order on departures is transitive. -/
theorem depLe_trans (a b c : Departure) :
    depLe a b = true → depLe b c = true → depLe a c = true := by
  simp only [depLe, Bool.or_eq_true, Bool.and_eq_true, decide_eq_true_eq, beq_iff_eq]
  omega

/-- The boolean comparator order coincides with the lexicographic order on
(hour, minute). -/
theorem depLe_iff (a b : Departure) :
    depLe a b = true ↔ (a.hour < b.hour ∨ (a.hour = b.hour ∧ a.minute ≤ b.minute)) := by
  simp only [depLe, Bool.or_eq_true, Bool.and_eq_true, decide_eq_true_eq, beq_iff_eq]

/-- Departures that agree on hour and minute are equal records. -/
theorem departure_key_unique (k : Int × Int) (x y : Departure)
    (hx : (x.hour == k.1 && x.minute == k.2) = true)
    (hy : (y.hour == k.1 && y.minute == k.2) = true) : x = y := by
  simp only [Bool.and_eq_true, beq_iff_eq] at hx hy
  cases x; cases y
  simp only [Departure.mk.injEq]
  simp only at hx hy
  omega

/-!  Facts about selection. -/

mutual

/-- Selections with pointwise agreeing predicates (over every extension of
the respective ancestor chains) coincide on a node. -/
theorem selectP_congr (p q : List Node → Node → Bool) (anc₁ anc₂ : List Node)
    (h : ∀ (a : List Node) (m : Node), p (anc₁ ++ a) m = q (anc₂ ++ a) m) :
    ∀ n : Node, selectP p anc₁ n = selectP q anc₂ n
  | .text s => by
      have h0 := h [] (.text s)
      simp only [List.append_nil] at h0
      simp only [selectP, h0]
  | .elem t c ch => by
      have h0 := h [] (.elem t c ch)
      simp only [List.append_nil] at h0
      have hrec :=
        selectPList_congr p q (anc₁ ++ [.elem t c ch]) (anc₂ ++ [.elem t c ch])
          (fun a m => by
            have := h (Node.elem t c ch :: a) m
            simpa [List.append_assoc] using this)
          ch
      simp only [selectP, h0, hrec]

/-- Sibling-list version of `selectP_congr`. -/
theorem selectPList_congr (p q : List Node → Node → Bool) (anc₁ anc₂ : List Node)
    (h : ∀ (a : List Node) (m : Node), p (anc₁ ++ a) m = q (anc₂ ++ a) m) :
    ∀ ns : NodeList, selectPList p anc₁ ns = selectPList q anc₂ ns
  | .nil => rfl
  | .cons n ns => by
      rw [selectPList, selectPList, selectP_congr p q anc₁ anc₂ h n,
        selectPList_congr p q anc₁ anc₂ h ns]

end

/-- Once some ancestor matches the ancestor part of a descendant selector,
the selection degenerates to the child part alone, independent of the
chain. -/
theorem selectPList_desc_armed (a c : SimpleSel) (anc : List Node)
    (h : anc.any (matchesSimple a) = true) (ns : NodeList) :
    selectPList (selMatch [.desc a c]) anc ns
      = selectPList (fun _ m => matchesSimple c m) [] ns :=
  selectPList_congr _ _ anc [] (fun s m => by
    simp [selMatch, matchesSel, List.any_append, h]) ns


mutual

/-- A descendant selector keyed on a class that occurs neither in the
ancestor chain nor anywhere in the subtree selects nothing. -/
theorem selectP_desc_cls_empty (c : String) (s : SimpleSel) (anc : List Node)
    (hanc : anc.any (matchesSimple (.cls c)) = false) :
    ∀ n : Node, Node.noClassDeep c n = true →
      selectP (selMatch [.desc (.cls c) s]) anc n = []
  | .text str, _ => by
      simp [selectP, selMatch, matchesSel, matchesSimple]
  | .elem t cls ch, hn => by
      have hcls : cls.contains c = false := by
        simp only [Node.noClassDeep, Bool.and_eq_true, Bool.not_eq_eq_eq_not,
          Bool.not_true] at hn
        exact hn.1
      have hch : NodeList.noClassDeep c ch = true := by
        simp only [Node.noClassDeep, Bool.and_eq_true] at hn
        exact hn.2
      have hmem : c ∉ cls := by simpa using hcls
      have hanc2 : (anc ++ [Node.elem t cls ch]).any (matchesSimple (.cls c)) = false := by
        simp [List.any_append, hanc, matchesSimple, hmem]
      have hrec := selectPList_desc_cls_empty c s (anc ++ [.elem t cls ch]) hanc2 ch hch
      simp [selectP, selMatch, matchesSel, hanc, hrec]

/-- Sibling-list version of `selectP_desc_cls_empty`. -/
theorem selectPList_desc_cls_empty (c : String) (s : SimpleSel) (anc : List Node)
    (hanc : anc.any (matchesSimple (.cls c)) = false) :
    ∀ ns : NodeList, NodeList.noClassDeep c ns = true →
      selectPList (selMatch [.desc (.cls c) s]) anc ns = []
  | .nil, _ => rfl
  | .cons n ns, h => by
      have h1 : Node.noClassDeep c n = true := by
        simp only [NodeList.noClassDeep, Bool.and_eq_true] at h
        exact h.1
      have h2 : NodeList.noClassDeep c ns = true := by
        simp only [NodeList.noClassDeep, Bool.and_eq_true] at h
        exact h.2
      rw [selectPList, selectP_desc_cls_empty c s anc hanc n h1,
        selectPList_desc_cls_empty c s anc hanc ns h2]
      rfl

end

/-!  Facts about the station loop. -/

/-- The written-back station list is the per-station processing applied
pointwise: no station can affect another station's record. -/
theorem mainLoop_stations (env : Env) (parse : Parser) (fault : Station → Bool) :
    ∀ stations : List Station,
      (mainLoop env parse fault stations).1
        = stations.map (fun st => (processStation env parse fault st).1)
  | [] => rfl
  | st :: rest => by
      simp [mainLoop, mainLoop_stations env parse fault rest]

/-- The final `updatedCount` is the sum of the per-station contributions. -/
theorem mainLoop_count (env : Env) (parse : Parser) (fault : Station → Bool) :
    ∀ stations : List Station,
      (mainLoop env parse fault stations).2.1
        = (stations.map (fun st => (processStation env parse fault st).2.1)).sum
  | [] => rfl
  | st :: rest => by
      simp [mainLoop, mainLoop_count env parse fault rest]

/-- The fetch log is the concatenation of the per-station fetch logs. -/
theorem mainLoop_fetched (env : Env) (parse : Parser) (fault : Station → Bool) :
    ∀ stations : List Station,
      (mainLoop env parse fault stations).2.2
        = (stations.map (fun st => (processStation env parse fault st).2.2)).flatten
  | [] => rfl
  | st :: rest => by
      simp [mainLoop, mainLoop_fetched env parse fault rest]

/-- A faulted station is left untouched by its iteration, contributes
nothing to the count and fetches nothing. -/
theorem processStation_fault (env : Env) (parse : Parser) (fault : Station → Bool)
    (st : Station) (hf : fault st = true) :
    processStation env parse fault st = (st, 0, []) := by
  simp [processStation, updateStationAttempt, hf]

/-- A station with no configuration entry is left untouched, contributes
nothing to the count and fetches nothing. -/
theorem processStation_noConfig (env : Env) (parse : Parser) (fault : Station → Bool)
    (st : Station) (hf : fault st = false) (hcfg : configLookup st.id = none) :
    processStation env parse fault st = (st, 0, []) := by
  simp [processStation, updateStationAttempt, hf, hcfg]

/-- The iteration of a configured, unfaulted station: commit and count
exactly when both day-type scrapes are non-empty. -/
theorem processStation_config (env : Env) (parse : Parser) (fault : Station → Bool)
    (st : Station) (cfg : StationConfig)
    (hf : fault st = false) (hcfg : configLookup st.id = some cfg) :
    processStation env parse fault st
      = (if 0 < (scrapeTimetablesForStation env parse cfg 1).1.length
            ∧ 0 < (scrapeTimetablesForStation env parse cfg 4).1.length
         then ({st with timetables := some ⟨(scrapeTimetablesForStation env parse cfg 1).1,
                        (scrapeTimetablesForStation env parse cfg 4).1⟩}, 1,
               (scrapeTimetablesForStation env parse cfg 1).2
                 ++ (scrapeTimetablesForStation env parse cfg 4).2)
         else (st, 0,
               (scrapeTimetablesForStation env parse cfg 1).2
                 ++ (scrapeTimetablesForStation env parse cfg 4).2)) := by
  by_cases h : 0 < (scrapeTimetablesForStation env parse cfg 1).1.length
      ∧ 0 < (scrapeTimetablesForStation env parse cfg 4).1.length
  · have hb : (decide (0 < (scrapeTimetablesForStation env parse cfg 1).1.length)
        && decide (0 < (scrapeTimetablesForStation env parse cfg 4).1.length)) = true := by
      simp [h.1, h.2]
    simp [processStation, updateStationAttempt, hf, hcfg, hb, if_pos h]
  · have hb : (decide (0 < (scrapeTimetablesForStation env parse cfg 1).1.length)
        && decide (0 < (scrapeTimetablesForStation env parse cfg 4).1.length)) = false := by
      rcases Decidable.not_and_iff_or_not.mp h with h1 | h1 <;> simp [h1]
    simp [processStation, updateStationAttempt, hf, hcfg, hb, if_neg h]

/-- Counting by summed zero-one indicators is `countP`. -/
theorem sum_map_ite_eq_countP (p : α → Bool) :
    ∀ l : List α, (l.map (fun x => if p x then 1 else 0)).sum = l.countP p
  | [] => rfl
  | a :: l => by
      simp [List.countP_cons, sum_map_ite_eq_countP p l, Nat.add_comm]

/-!  The claims. -/

/-- C1, counterexample.  On the specification's own fixture document the
scraper does not return the two departures `[(7,5), (7,23)]`: each minute
is extracted twice, once through its `li` (via the nested `.time` span)
and once through the nested `span` itself, because the three minute
patterns form one comma-separated union selector. -/
theorem c1_counterexample :
    scrapeYahooTimetable envOk parseFixture "u" = [⟨7, 5⟩, ⟨7, 5⟩, ⟨7, 23⟩, ⟨7, 23⟩]
      ∧ scrapeYahooTimetable envOk parseFixture "u" ≠ [⟨7, 5⟩, ⟨7, 23⟩] := by
  decide

/-- C1, amended.  On the fixture document the scraper returns exactly
`[(7,5), (7,5), (7,23), (7,23)]` — the two encoded departures, each
duplicated, in ascending order. -/
theorem c1_fixture_departures :
    scrapeYahooTimetable envOk parseFixture "u" = [⟨7, 5⟩, ⟨7, 5⟩, ⟨7, 23⟩, ⟨7, 23⟩]
      ∧ scrapeDoc fixtureDoc = [⟨7, 5⟩, ⟨7, 5⟩, ⟨7, 23⟩, ⟨7, 23⟩] := by
  decide

/-- C2, counterexample.  The minute enumeration of the code differs from
the spec-described first-match-wins enumeration on the fixture row: the
union selector lets the `li` and its nested `span` each contribute a
departure. -/
theorem c2_counterexample :
    rowDepartures fixtureRow = [⟨7, 5⟩, ⟨7, 5⟩, ⟨7, 23⟩, ⟨7, 23⟩]
      ∧ rowDeparturesFirstMatch fixtureRow = [⟨7, 5⟩, ⟨7, 23⟩]
      ∧ rowDepartures fixtureRow ≠ rowDeparturesFirstMatch fixtureRow := by
  decide

/-- C2, amended.  The minute candidates of a row are the elements matching
any of the three patterns, evaluated together in document order (CSS
union), so an element and a nested sub-element may each contribute a
departure. -/
theorem c2_union_semantics (row : Node) :
    rowDepartures row = rowDeparturesUnion row := by
  unfold rowDepartures rowDeparturesUnion
  cases hr : rowHour row with
  | none => rfl
  | some h =>
      cases row with
      | text s => rfl
      | elem t c ch =>
          have hsel : rowMinuteCandidates (.elem t c ch)
              = rowMinuteCandidatesUnion (.elem t c ch) := by
            unfold rowMinuteCandidates Node.findAll rowMinuteCandidatesUnion
            exact selectPList_congr _ _ _ _
              (fun a m => by simp [selMatch, Bool.or_assoc]) ch
          rw [hsel]

/-- C4, counterexample.  The scraper enforces no bounds: a document with
hour texts `30` and `-3` and minute texts `99` and `15` yields departures
violating every documented bound. -/
theorem c4_counterexample :
    scrapeYahooTimetable envOk parseOutOfRange "u" = [⟨-3, 15⟩, ⟨30, 99⟩]
      ∧ ¬ (∀ d ∈ scrapeYahooTimetable envOk parseOutOfRange "u",
            0 ≤ d.hour ∧ d.hour ≤ 29 ∧ 0 ≤ d.minute ∧ d.minute ≤ 59) := by
  decide

/-- C6.  A rejected fetch, a response that is not ok, or a throwing parse
all make `scrapeYahooTimetable` return the empty list (the error is caught
inside the function, so, being a total function of its inputs, it can
never abort the surrounding update). -/
theorem c6_failure_yields_empty (env : Env) (parse : Parser) (url : String)
    (h : (∃ msg, env url = .fetchError msg)
        ∨ (∃ body, env url = .response false body)
        ∨ (∃ body e, env url = .response true body ∧ parse body = .error e)) :
    scrapeYahooTimetable env parse url = [] := by
  rcases h with ⟨msg, hm⟩ | ⟨body, hb⟩ | ⟨body, e, hb, hp⟩
  · simp [scrapeYahooTimetable, scrapeAttempt, hm]
  · simp [scrapeYahooTimetable, scrapeAttempt, hb]
  · simp [scrapeYahooTimetable, scrapeAttempt, hb, hp]

/-- Witness for C6 at a concrete always-failing network. -/
theorem c6_witness :
    scrapeYahooTimetable envDown parseFail "https://transit.yahoo.co.jp/timetable/25809/5690?kind=1" = [] :=
  c6_failure_yields_empty envDown parseFail _ (Or.inl ⟨"network down", rfl⟩)

/-- C7.  A row on which neither the hour cell text nor the first cell text
parses as a leading integer contributes no departures; being a total
function, the row handler cannot throw, the row is merely skipped. -/
theorem c7_unparsable_row_skipped (row : Node)
    (h1 : jsParseInt (hourCellText row) = none)
    (h2 : jsParseInt (firstCellText row) = none) :
    rowDepartures row = [] := by
  simp [rowDepartures, rowHour, h1, h2]

/-- Witness for C7 at a concrete header row. -/
theorem c7_witness :
    jsParseInt (hourCellText headerRow) = none
      ∧ jsParseInt (firstCellText headerRow) = none
      ∧ rowDepartures headerRow = [] :=
  ⟨by decide, by decide,
    c7_unparsable_row_skipped headerRow (by decide) (by decide)⟩

/-- Helper: every departure of a parsed document has a non-negative
minute, because the minute is the value of a digit run. -/
theorem minute_nonneg_scrapeDoc (doc : Node) (d : Departure)
    (hd : d ∈ scrapeDoc doc) : 0 ≤ d.minute := by
  have hmem : d ∈ collectDepartures doc :=
    (jsSort_perm depLe (collectDepartures doc)).mem_iff.mp hd
  rcases List.mem_flatMap.mp hmem with ⟨row, _, hrow⟩
  unfold rowDepartures at hrow
  cases hh : rowHour row with
  | none => rw [hh] at hrow; simp at hrow
  | some h =>
      rw [hh] at hrow
      rcases List.mem_filterMap.mp hrow with ⟨item, _, hitem⟩
      unfold depOfCandidate at hitem
      rcases Option.map_eq_some'.mp hitem with ⟨m, _, hmd⟩
      rw [← hmd]
      exact Int.natCast_nonneg m

/-- Helper: a successful scrape attempt returns the parse of some
document. -/
theorem scrapeAttempt_ok_eq (env : Env) (parse : Parser) (url : String)
    (ds : List Departure) (h : scrapeAttempt env parse url = .ok ds) :
    ∃ doc : Node, ds = scrapeDoc doc := by
  unfold scrapeAttempt at h
  cases he : env url with
  | fetchError msg => rw [he] at h; simp at h
  | response ok body =>
      rw [he] at h
      cases ok with
      | false => simp at h
      | true =>
          simp only [if_true] at h
          cases hp : parse body with
          | error e => rw [hp] at h; simp at h
          | ok doc =>
              rw [hp] at h
              simp only [Except.ok.injEq] at h
              exact ⟨doc, h.symm⟩

/-- C4, amended.  Every departure emitted by the fetch-and-parse operation
has a non-negative minute (the minute is a parsed leading digit run); the
operation enforces no upper bound on hour or minute and no lower bound on
the hour. -/
theorem c4_minute_nonneg (env : Env) (parse : Parser) (url : String)
    (d : Departure) (hd : d ∈ scrapeYahooTimetable env parse url) :
    0 ≤ d.minute := by
  unfold scrapeYahooTimetable at hd
  cases hsc : scrapeAttempt env parse url with
  | error e => rw [hsc] at hd; simp at hd
  | ok ds =>
      rw [hsc] at hd
      rcases scrapeAttempt_ok_eq env parse url ds hsc with ⟨doc, rfl⟩
      exact minute_nonneg_scrapeDoc doc d hd

/-- Witness for C4 at the fixture document served over a concrete
network. -/
theorem c4_witness : 0 ≤ (Departure.mk 7 5).minute :=
  c4_minute_nonneg envOk parseFixture "u" ⟨7, 5⟩ (by decide)

/-- C3.  For a configured station processed without exception, the
persisted record is overwritten with the freshly scraped weekday and
holiday sets exactly when both are non-empty; otherwise the prior record
is written back unchanged. -/
theorem c3_commit_policy (env : Env) (parse : Parser) (fault : Station → Bool)
    (stations : List Station) (i : Nat) (st : Station) (cfg : StationConfig)
    (hst : stations[i]? = some st) (hf : fault st = false)
    (hcfg : configLookup st.id = some cfg) :
    (mainUpdate env parse fault stations).stations[i]?
      = some (if 0 < (scrapeTimetablesForStation env parse cfg 1).1.length
                 ∧ 0 < (scrapeTimetablesForStation env parse cfg 4).1.length
              then {st with timetables := some ⟨(scrapeTimetablesForStation env parse cfg 1).1,
                              (scrapeTimetablesForStation env parse cfg 4).1⟩}
              else st) := by
  show (mainLoop env parse fault stations).1[i]? = _
  rw [mainLoop_stations, List.getElem?_map, hst]
  simp only [Option.map_some']
  rw [processStation_config env parse fault st cfg hf hcfg]
  by_cases h : 0 < (scrapeTimetablesForStation env parse cfg 1).1.length
      ∧ 0 < (scrapeTimetablesForStation env parse cfg 4).1.length
  · rw [if_pos h, if_pos h]
  · rw [if_neg h, if_neg h]

/-- Witness for C3: a configured station whose fetches all fail keeps its
prior record. -/
theorem c3_witness :
    (mainUpdate envDown parseFail noFault [stAbiko]).stations[0]? = some stAbiko := by
  have h := c3_commit_policy envDown parseFail noFault [stAbiko] 0 stAbiko cfgAbiko
    rfl rfl (by decide)
  rw [h]
  decide

/-- C8.  Per-station isolation and the meaning of the reported count: the
whole station list is written back, a faulted station keeps its record,
every station is processed from its own record alone regardless of faults
elsewhere, and `updatedCount` is exactly the number of stations whose
records were committed (unfaulted, configured, both scrapes non-empty). -/
theorem c8_station_isolation (env : Env) (parse : Parser) (fault : Station → Bool)
    (stations : List Station) :
    (mainUpdate env parse fault stations).stations.length = stations.length
    ∧ (∀ (i : Nat) (st : Station), stations[i]? = some st → fault st = true →
        (mainUpdate env parse fault stations).stations[i]? = some st)
    ∧ (∀ (i : Nat) (st : Station), stations[i]? = some st →
        (mainUpdate env parse fault stations).stations[i]?
          = some (processStation env parse fault st).1)
    ∧ (mainUpdate env parse fault stations).updatedCount
        = (stations.filter (fun st =>
            !(fault st)
              && (match configLookup st.id with
                  | none => false
                  | some cfg =>
                      decide (0 < (scrapeTimetablesForStation env parse cfg 1).1.length)
                        && decide (0 < (scrapeTimetablesForStation env parse cfg 4).1.length)))).length := by
  refine ⟨?_, ?_, ?_, ?_⟩
  · show (mainLoop env parse fault stations).1.length = _
    rw [mainLoop_stations, List.length_map]
  · intro i st hst hf
    show (mainLoop env parse fault stations).1[i]? = _
    rw [mainLoop_stations, List.getElem?_map, hst]
    simp [processStation_fault env parse fault st hf]
  · intro i st hst
    show (mainLoop env parse fault stations).1[i]? = _
    rw [mainLoop_stations, List.getElem?_map, hst]
    rfl
  · show (mainLoop env parse fault stations).2.1 = _
    rw [mainLoop_count]
    have hcontrib : ∀ st : Station,
        (processStation env parse fault st).2.1
          = if (!(fault st)
              && (match configLookup st.id with
                  | none => false
                  | some cfg =>
                      decide (0 < (scrapeTimetablesForStation env parse cfg 1).1.length)
                        && decide (0 < (scrapeTimetablesForStation env parse cfg 4).1.length))) = true
            then 1 else 0 := by
      intro st
      cases hf : fault st with
      | true => simp [processStation_fault env parse fault st hf, hf]
      | false =>
          cases hcfg : configLookup st.id with
          | none => simp [processStation_noConfig env parse fault st hf hcfg, hf, hcfg]
          | some cfg =>
              rw [processStation_config env parse fault st cfg hf hcfg]
              by_cases h : 0 < (scrapeTimetablesForStation env parse cfg 1).1.length
                  ∧ 0 < (scrapeTimetablesForStation env parse cfg 4).1.length
              · rw [if_pos h]
                simp [hf, hcfg, h.1, h.2]
              · rw [if_neg h]
                rcases Decidable.not_and_iff_or_not.mp h with h1 | h1 <;>
                  simp [hf, hcfg, h1]
    calc (stations.map (fun st => (processStation env parse fault st).2.1)).sum
        = (stations.map (fun st =>
            if (!(fault st)
              && (match configLookup st.id with
                  | none => false
                  | some cfg =>
                      decide (0 < (scrapeTimetablesForStation env parse cfg 1).1.length)
                        && decide (0 < (scrapeTimetablesForStation env parse cfg 4).1.length))) = true
            then 1 else 0)).sum := by
          exact congrArg List.sum (List.map_congr_left (fun st _ => hcontrib st))
      _ = _ := by
          rw [sum_map_ite_eq_countP, List.countP_eq_length_filter]

/-- Witness for C8: with a faulted first station, the first record is kept
verbatim and no station is counted (the second station's fetches fail). -/
theorem c8_witness :
    (mainUpdate envDown parseFail faultBroken [stBroken, stAbiko]).stations[0]? = some stBroken
      ∧ (mainUpdate envDown parseFail faultBroken [stBroken, stAbiko]).updatedCount = 0 := by
  have h := c8_station_isolation envDown parseFail faultBroken [stBroken, stAbiko]
  refine ⟨h.2.1 0 stBroken rfl rfl, ?_⟩
  rw [h.2.2.2]
  decide

/-- C10.  A station whose id has no `STATION_CONFIG` entry is skipped: its
record is written back verbatim, its iteration fetches nothing and
contributes nothing, the tally is the tally of the list with the station
removed, and every other station is still processed from its own record. -/
theorem c10_unknown_station (env : Env) (parse : Parser) (fault : Station → Bool)
    (stations : List Station) (i : Nat) (st : Station)
    (hst : stations[i]? = some st) (hf : fault st = false)
    (hcfg : configLookup st.id = none) :
    (mainUpdate env parse fault stations).stations[i]? = some st
    ∧ processStation env parse fault st = (st, 0, [])
    ∧ (mainUpdate env parse fault stations).updatedCount
        = (mainUpdate env parse fault (stations.take i)).updatedCount
          + (mainUpdate env parse fault (stations.drop (i + 1))).updatedCount
    ∧ (mainUpdate env parse fault stations).fetched
        = (mainUpdate env parse fault (stations.take i)).fetched
          ++ (mainUpdate env parse fault (stations.drop (i + 1))).fetched
    ∧ (∀ (j : Nat) (stj : Station), stations[j]? = some stj →
        (mainUpdate env parse fault stations).stations[j]?
          = some (processStation env parse fault stj).1) := by
  have hp0 := processStation_noConfig env parse fault st hf hcfg
  rcases List.getElem?_eq_some_iff.mp hst with ⟨hlt, hget⟩
  have hdrop : stations.drop i = st :: stations.drop (i + 1) := by
    rw [List.drop_eq_getElem_cons hlt, hget]
  have hdecomp : stations = stations.take i ++ st :: stations.drop (i + 1) := by
    conv_lhs => rw [← List.take_append_drop i stations]
    rw [hdrop]
  refine ⟨?_, hp0, ?_, ?_, ?_⟩
  · show (mainLoop env parse fault stations).1[i]? = _
    rw [mainLoop_stations, List.getElem?_map, hst]
    simp [hp0]
  · show (mainLoop env parse fault stations).2.1
        = (mainLoop env parse fault (stations.take i)).2.1
          + (mainLoop env parse fault (stations.drop (i + 1))).2.1
    rw [mainLoop_count, mainLoop_count, mainLoop_count]
    conv_lhs => rw [hdecomp]
    simp [hp0]
  · show (mainLoop env parse fault stations).2.2
        = (mainLoop env parse fault (stations.take i)).2.2
          ++ (mainLoop env parse fault (stations.drop (i + 1))).2.2
    rw [mainLoop_fetched, mainLoop_fetched, mainLoop_fetched]
    conv_lhs => rw [hdecomp]
    simp [hp0]
  · intro j stj hstj
    show (mainLoop env parse fault stations).1[j]? = _
    rw [mainLoop_stations, List.getElem?_map, hstj]
    rfl

/-- Witness for C10 at a concrete unconfigured station. -/
theorem c10_witness :
    (mainUpdate envDown parseFail noFault [stUnknown]).stations[0]? = some stUnknown
      ∧ processStation envDown parseFail noFault stUnknown = (stUnknown, 0, []) := by
  have h := c10_unknown_station envDown parseFail noFault [stUnknown] 0 stUnknown
    rfl rfl (by decide)
  exact ⟨h.1, h.2.1⟩

/-- C5, counterexample.  The comparator sorts by hour first, which is not
the `hour*60+minute` key once a minute text exceeds 59: the overflow
document comes out as `[(0,120), (1,0)]`, with keys 120 then 60. -/
theorem c5_counterexample :
    scrapeYahooTimetable envOk parseOverflow "u" = [⟨0, 120⟩, ⟨1, 0⟩]
      ∧ ¬ (scrapeYahooTimetable envOk parseOverflow "u").Pairwise
          (fun a b => a.hour * 60 + a.minute ≤ b.hour * 60 + b.minute) := by
  decide

/-- Helper: the scraper output is sorted in the lexicographic (hour,
minute) order. -/
theorem pairwise_scrapeDoc (doc : Node) :
    (scrapeDoc doc).Pairwise
      (fun a b => a.hour < b.hour ∨ (a.hour = b.hour ∧ a.minute ≤ b.minute)) :=
  (pairwise_jsSort depLe depLe_total depLe_trans (collectDepartures doc)).imp
    (fun h => (depLe_iff _ _).mp h)

/-- C5, amended.  Every departure sequence returned by the fetch-and-parse
operation is sorted non-decreasing in the lexicographic (hour, minute)
order — which agrees with the `hour*60+minute` key whenever all minutes
are below 60 — and the sort is stable: for any (hour, minute) key, the
sorted sequence restricted to that key equals the accumulated sequence
restricted to that key. -/
theorem c5_sorted_lex_stable (env : Env) (parse : Parser) (url : String)
    (doc : Node) (k : Int × Int) :
    (scrapeYahooTimetable env parse url).Pairwise
      (fun a b => a.hour < b.hour ∨ (a.hour = b.hour ∧ a.minute ≤ b.minute))
    ∧ (scrapeDoc doc).filter (fun d => d.hour == k.1 && d.minute == k.2)
        = (collectDepartures doc).filter (fun d => d.hour == k.1 && d.minute == k.2) := by
  constructor
  · unfold scrapeYahooTimetable
    cases hsc : scrapeAttempt env parse url with
    | error e => exact List.Pairwise.nil
    | ok ds =>
        rcases scrapeAttempt_ok_eq env parse url ds hsc with ⟨d0, rfl⟩
        exact pairwise_scrapeDoc d0
  · exact filter_eq_of_perm_of_unique (jsSort_perm depLe (collectDepartures doc))
      _ (departure_key_unique k)

/-- Helper: selection of a descendant-of-`a` `tr` selector on a wrapped
page reduces to the traversal of the rows under the full ancestor chain. -/
theorem select_page_desc_tr (a : SimpleSel) (cs : List String) (rows : List Node) :
    select (mkTimetablePage cs rows) [.desc a (.tag "tr")]
      = selectPList (selMatch [.desc a (.tag "tr")])
          [mkTimetablePage cs rows,
           el "body" [] [el "table" cs rows],
           el "table" cs rows]
          (NodeList.ofList rows) := by
  unfold select mkTimetablePage el
  simp +decide [selectP, selectPList, NodeList.ofList, selMatch, matchesSel, matchesSimple]

/-- Helper: on a page whose table carries the `tbl-dia` class, the primary
selector collects exactly the `tr` elements below the table. -/
theorem select_page_primary (rows : List Node) :
    select (mkTimetablePage ["tbl-dia"] rows) [.desc (.cls "tbl-dia") (.tag "tr")]
      = selectPList (fun _ m => matchesSimple (.tag "tr") m) [] (NodeList.ofList rows) := by
  rw [select_page_desc_tr]
  apply selectPList_desc_armed
  simp +decide [mkTimetablePage, el, matchesSimple]

/-- Helper: the generic fallback selector collects exactly the `tr`
elements below the table, for any table classes. -/
theorem select_page_fallback (cs : List String) (rows : List Node) :
    select (mkTimetablePage cs rows) [.desc (.tag "table") (.tag "tr")]
      = selectPList (fun _ m => matchesSimple (.tag "tr") m) [] (NodeList.ofList rows) := by
  rw [select_page_desc_tr]
  apply selectPList_desc_armed
  simp +decide [mkTimetablePage, el, matchesSimple]

/-- Helper: on a classless page with no `tbl-dia` anywhere in the rows,
the primary selector matches nothing. -/
theorem select_page_primary_empty (rows : List Node)
    (h : NodeList.noClassDeep "tbl-dia" (NodeList.ofList rows) = true) :
    select (mkTimetablePage [] rows) [.desc (.cls "tbl-dia") (.tag "tr")] = [] := by
  rw [select_page_desc_tr]
  apply selectPList_desc_cls_empty _ _ _ _ _ h
  simp +decide [mkTimetablePage, el, matchesSimple]

/-- Helper: row lookup on the page with the primary class. -/
theorem timetableRows_page_primary (rows : List Node) :
    timetableRows (mkTimetablePage ["tbl-dia"] rows)
      = selectPList (fun _ m => matchesSimple (.tag "tr") m) [] (NodeList.ofList rows) := by
  unfold timetableRows
  rw [select_page_primary rows, select_page_fallback ["tbl-dia"] rows]
  exact ite_self _

/-- Helper: row lookup on the classless page falls back to the generic
selector and collects the same rows. -/
theorem timetableRows_page_generic (rows : List Node)
    (h : NodeList.noClassDeep "tbl-dia" (NodeList.ofList rows) = true) :
    timetableRows (mkTimetablePage [] rows)
      = selectPList (fun _ m => matchesSimple (.tag "tr") m) [] (NodeList.ofList rows) := by
  unfold timetableRows
  rw [select_page_primary_empty rows h, select_page_fallback [] rows]
  rfl

/-- C9.  A page carrying the primary `tbl-dia` class on its table and the
same page with a plain table (no primary-selector class anywhere) encode
the same rows, and the scraper returns the same departure sequence for
both. -/
theorem c9_fallback_equivalence (rows : List Node)
    (h : NodeList.noClassDeep "tbl-dia" (NodeList.ofList rows) = true) :
    scrapeDoc (mkTimetablePage ["tbl-dia"] rows)
      = scrapeDoc (mkTimetablePage [] rows) := by
  unfold scrapeDoc collectDepartures
  rw [timetableRows_page_primary rows, timetableRows_page_generic rows h]

/-- Witness for C9 at the fixture row. -/
theorem c9_witness :
    NodeList.noClassDeep "tbl-dia" (NodeList.ofList [fixtureRow]) = true
      ∧ scrapeDoc (mkTimetablePage ["tbl-dia"] [fixtureRow])
          = scrapeDoc (mkTimetablePage [] [fixtureRow]) :=
  ⟨by decide, c9_fallback_equivalence [fixtureRow] (by decide)⟩
